import Mathlib

/-!
Verification development for the signature-verification repository
(`server/config.py`, `server/app.py`, `server/data_preprocessing.py`,
`server/train.py`, `server/model.py`).

The Python sources are shallowly embedded: pure decision logic becomes Lean
functions over `ℚ` (Python floats are modelled as rationals), external
libraries (cv2 decoding, sklearn splitting, Keras callbacks) are modelled at
the level of their documented contracts, and fallible paths return
`Except`/`Option`.  Images are kept abstract (a type parameter `α`): none of
the verified properties depend on pixel contents.
-/

namespace SignatureVerif

/-! ## config.py -/

/-- config.py line 158: `CONFIDENCE_THRESHOLD = 0.5`. -/
def CONFIDENCE_THRESHOLD : ℚ := 1/2

/-- config.py line 171: `RANDOM_SEED = 42`. -/
def RANDOM_SEED : Nat := 42

/-- config.py line 119: `EARLY_STOPPING_PATIENCE = 10`. -/
def EARLY_STOPPING_PATIENCE : Nat := 10

/-- config.py line 57: `TRAIN_SPLIT = 0.7`. -/
def TRAIN_SPLIT : ℚ := 7/10

/-- config.py line 58: `VALIDATION_SPLIT = 0.15`. -/
def VALIDATION_SPLIT : ℚ := 15/100

/-- config.py line 59: `TEST_SPLIT = 0.15`. -/
def TEST_SPLIT : ℚ := 15/100

/-! ## app.py : serving-side preprocessing and the verification engine -/

/-- app.py `preprocess_signature` (lines 67-100).  `cv2.imdecode` is an
external decoder; its outcome on a byte blob is modelled as
`Option α` (`none` = the bytes are not a valid raster image, in which case
the source raises `ValueError("Could not decode image")`).  The subsequent
resize/normalize steps operate on the decoded grid, which we keep abstract. -/
def preprocess_signature {α : Type} (imageBytes : Option α) : Except String α :=
  match imageBytes with
  | none => Except.error "Could not decode image"
  | some img => Except.ok img

/-- app.py line 185: `is_genuine = prediction_prob >= config.CONFIDENCE_THRESHOLD`
(the `/predict` endpoint; the `/verify` endpoint at lines 253-254 applies the
same comparison to each of its two probabilities). -/
def predict_is_genuine (p : ℚ) : Bool :=
  decide (CONFIDENCE_THRESHOLD ≤ p)

/-- The verification verdict record built by `verify_signature`
(app.py lines 262-275): the match boolean, the similarity score, the two
individual classifications and the verdict string. -/
structure VerifyResult where
  matched : Bool
  similarity : ℚ
  refGenuine : Bool
  testGenuine : Bool
  verdict : String
  deriving Repr, DecidableEq

/-- app.py `verify_signature` decision core (lines 249-275): classifier
probabilities for the two decoded images, genuineness of each by
`pred >= CONFIDENCE_THRESHOLD`, `similarity = 1 - abs(ref_pred - test_pred)`,
and `match = ref_is_genuine and test_is_genuine and similarity > 0.85`.
The classifier (`loaded_model.predict`) is a parameter `classify`. -/
def verify_signature {α : Type} (classify : α → ℚ) (refImg testImg : α) :
    VerifyResult :=
  let ref_pred := classify refImg
  let test_pred := classify testImg
  let ref_is_genuine := decide (CONFIDENCE_THRESHOLD ≤ ref_pred)
  let test_is_genuine := decide (CONFIDENCE_THRESHOLD ≤ test_pred)
  let similarity := 1 - |ref_pred - test_pred|
  let matched := ref_is_genuine && test_is_genuine && decide ((85:ℚ)/100 < similarity)
  { matched := matched
    similarity := similarity
    refGenuine := ref_is_genuine
    testGenuine := test_is_genuine
    verdict := if matched then "VERIFIED" else "REJECTED" }

/-! ## train.py : the evaluator's hard prediction -/

/-- train.py line 250: `y_pred = (y_pred_prob > config.CONFIDENCE_THRESHOLD).astype(int)`
— the Evaluator thresholds with a strict `>`. -/
def evaluate_hard_pred (p : ℚ) : Nat :=
  if CONFIDENCE_THRESHOLD < p then 1 else 0

/-! ## data_preprocessing.py : image loading and dataset assembly -/

/-- data_preprocessing.py `load_images_from_folder` (lines 12-76).  Each file
in the folder is represented by the outcome of `cv2.imread` on it
(`Option α`, `none` = an unreadable/undecodable file).  A readable image is
resized/normalized (the grid stays abstract) and appended together with the
`label` argument; an unreadable one is logged with a warning and skipped
(lines 57-72).  The source keeps parallel `images`/`labels` arrays; they are
paired here. -/
def load_images_from_folder {α : Type} (files : List (Option α)) (label : Nat) :
    List (α × Nat) :=
  match files with
  | [] => []
  | some img :: rest => (img, label) :: load_images_from_folder rest label
  | none :: rest => load_images_from_folder rest label

/-- One identity (user) directory as seen by `prepare_dataset`: which
candidate sub-folders exist, and the `cv2.imread` outcomes for the files in
each sub-folder. -/
structure IdentityDir (α : Type) where
  existsDir : String → Bool
  filesAt : String → List (Option α)

/-- The genuine sub-folder name variants probed by `prepare_dataset`
(data_preprocessing.py lines 116-120), in source order. -/
def genuineCandidates : List String :=
  ["genuine/images", "genuine_images", "genuine"]

/-- The forged sub-folder name variants probed by `prepare_dataset`
(data_preprocessing.py lines 124-136), in source order. -/
def forgedCandidates : List String :=
  ["skilled forgery/images", "skilled_forgery/images", "skilled_forgery_images",
   "forged_images", "forged/images", "skilled forgery", "skilled_forgery"]

/-- data_preprocessing.py lines 116-120: `genuine_path` starts at
`genuine/images` and falls back step by step while the current candidate does
not exist. -/
def genuine_path {α : Type} (u : IdentityDir α) : String :=
  if u.existsDir "genuine/images" then "genuine/images"
  else if u.existsDir "genuine_images" then "genuine_images"
  else "genuine"

/-- data_preprocessing.py lines 124-136: `forged_path` starts at
`skilled forgery/images` and falls back step by step while the current
candidate does not exist. -/
def forged_path {α : Type} (u : IdentityDir α) : String :=
  if u.existsDir "skilled forgery/images" then "skilled forgery/images"
  else if u.existsDir "skilled_forgery/images" then "skilled_forgery/images"
  else if u.existsDir "skilled_forgery_images" then "skilled_forgery_images"
  else if u.existsDir "forged_images" then "forged_images"
  else if u.existsDir "forged/images" then "forged/images"
  else if u.existsDir "skilled forgery" then "skilled forgery"
  else "skilled_forgery"

/-- data_preprocessing.py lines 139-149: genuine samples (label 1) of one
identity — loaded from `genuine_path` when it exists, otherwise the identity
is logged and contributes no genuine samples. -/
def genuineContribution {α : Type} (u : IdentityDir α) : List (α × Nat) :=
  if u.existsDir (genuine_path u) then
    load_images_from_folder (u.filesAt (genuine_path u)) 1
  else []

/-- data_preprocessing.py lines 151-163: forged samples (label 0) of one
identity — loaded from `forged_path` when it exists, otherwise the identity
is logged and contributes no forged samples. -/
def forgedContribution {α : Type} (u : IdentityDir α) : List (α × Nat) :=
  if u.existsDir (forged_path u) then
    load_images_from_folder (u.filesAt (forged_path u)) 0
  else []

/-- data_preprocessing.py lines 165-174: concatenation of the genuine samples
of all identities, in directory order. -/
def genuinePool {α : Type} (users : List (IdentityDir α)) : List (α × Nat) :=
  (users.map genuineContribution).flatten

/-- data_preprocessing.py lines 176-185: concatenation of the forged samples
of all identities, in directory order. -/
def forgedPool {α : Type} (users : List (IdentityDir α)) : List (α × Nat) :=
  (users.map forgedContribution).flatten

/-- data_preprocessing.py lines 197-200: the assembled dataset
`X = concatenate([genuine_images, forged_images])` with its parallel labels. -/
def assembled_dataset {α : Type} (users : List (IdentityDir α)) : List (α × Nat) :=
  genuinePool users ++ forgedPool users

/-- Number of genuine samples (label 1) in a labeled sample list. -/
def genuineCount {α : Type} (l : List (α × Nat)) : Nat :=
  l.countP (fun s => s.2 == 1)

/-- A linear congruential step — the deterministic pseudo-random stream that
stands in for numpy's seeded generator inside sklearn. -/
def lcg (s : Nat) : Nat :=
  (1103515245 * s + 12345) % 2147483648

/-- Selection-shuffle worker: `fuel` bounds the recursion (it is called with
`fuel = length`, which suffices since each step removes one element). -/
def shuffleGo {α : Type} : Nat → Nat → List α → List α
  | 0, _, _ => []
  | _ + 1, _, [] => []
  | fuel + 1, s, x :: xs =>
    let l := x :: xs
    let k := s % l.length
    l.get ⟨k, Nat.mod_lt _ (Nat.succ_pos xs.length)⟩ ::
      shuffleGo fuel (lcg s) (l.eraseIdx k)

/-- Modelled from the spec: the seeded deterministic shuffle underlying
sklearn's `train_test_split` (`random_state=RANDOM_SEED` makes the split
"deterministic across runs", spec section 4.2).  A pure Fisher-Yates-style
selection shuffle driven by `lcg`; the exact permutation is irrelevant to
every claim — only that it is a permutation determined by the seed. -/
def shuffleList {α : Type} (s : Nat) (l : List α) : List α :=
  shuffleGo l.length s l

/-- Modelled from the spec: sklearn's
`train_test_split(X, y, test_size=num/den, random_state=seed, stratify=y)`
(external collaborator).  Stratification on the binary label: the genuine
(label 1) and non-genuine groups are split separately in proportion
`num/den` (test-share count rounded down per group), after a deterministic
seeded shuffle of each group.  Returns `(train, test)` as the source's
parallel `X`/`y` arrays, paired. -/
def train_test_split {α : Type} (seed num den : Nat) (samples : List (α × Nat)) :
    List (α × Nat) × List (α × Nat) :=
  let pos := samples.filter (fun s => s.2 == 1)
  let neg := samples.filter (fun s => !(s.2 == 1))
  let posSh := shuffleList seed pos
  let negSh := shuffleList (lcg seed) neg
  let nPos := num * pos.length / den
  let nNeg := num * neg.length / den
  (posSh.drop nPos ++ negSh.drop nNeg, posSh.take nPos ++ negSh.take nNeg)

/-- data_preprocessing.py `prepare_dataset` (lines 79-246): gather the
genuine and forged pools over all identity folders; if either pool is empty
return no split at all (lines 188-195, the spec's `DatasetEmptyError`);
otherwise split the assembled dataset 70/30 stratified on the label
(`test_size = VALIDATION_SPLIT + TEST_SPLIT = 3/10`, line 217) and the
30% remainder 50/50 (line 225), both with `random_state = RANDOM_SEED`. -/
def prepare_dataset {α : Type} (seed : Nat) (users : List (IdentityDir α)) :
    Option (List (α × Nat) × List (α × Nat) × List (α × Nat)) :=
  let g := genuinePool users
  let f := forgedPool users
  if g.length = 0 ∨ f.length = 0 then none
  else
    let X := g ++ f
    let split1 := train_test_split seed 3 10 X
    let split2 := train_test_split seed 1 2 split1.2
    some (split1.1, split2.1, split2.2)

/-- A small concrete directory tree used to exercise the embedding: an
identity folder holding five genuine and five forged images under the
`genuine_images`/`forged_images` naming variants. -/
def demoUser (base : Nat) : IdentityDir Nat :=
  { existsDir := fun s => s == "genuine_images" || s == "forged_images"
    filesAt := fun s =>
      if s == "genuine_images" then
        [some base, some (base + 1), some (base + 2), some (base + 3), some (base + 4)]
      else if s == "forged_images" then
        [some (base + 5), some (base + 6), some (base + 7), some (base + 8),
          some (base + 9)]
      else [] }

/-- A two-identity demo directory tree (ten genuine, ten forged images). -/
def demoUsers : List (IdentityDir Nat) :=
  [demoUser 100, demoUser 200]

/-! ## train.py : the training controller (early stopping / checkpoint) -/

/-- One epoch's validation metrics, as recorded in the Training History. -/
structure EpochMetrics where
  valLoss : ℚ
  valAcc : ℚ
  deriving Repr, DecidableEq

/-- The Training Controller's callback state.  `bestLoss`/`bestLossEpoch`/
`wait` belong to `EarlyStopping(monitor='val_loss', restore_best_weights=True)`
(train.py lines 133-139): `bestLossEpoch` is the epoch whose parameter
snapshot is restored when training ends.  `bestAcc`/`checkpointEpoch` belong
to `ModelCheckpoint(monitor='val_accuracy', save_best_only=True)`
(train.py lines 145-151): `checkpointEpoch` is the epoch of the snapshot
last written to disk.  `epochsRun` counts executed epochs; `stopped` is the
early-stopping flag. -/
structure TrainState where
  bestLoss : Option ℚ
  bestLossEpoch : Nat
  wait : Nat
  bestAcc : Option ℚ
  checkpointEpoch : Option Nat
  epochsRun : Nat
  stopped : Bool
  deriving Repr, DecidableEq

/-- Callback state before the first epoch (Keras initialises both monitors
to "no best seen yet"). -/
def initialTrainState : TrainState :=
  { bestLoss := none, bestLossEpoch := 0, wait := 0,
    bestAcc := none, checkpointEpoch := none, epochsRun := 0, stopped := false }

/-- `val_loss` improvement test of `EarlyStopping` (mode min, `min_delta` 0):
any value improves on "nothing yet", otherwise strict decrease. -/
def lossImproved : Option ℚ → ℚ → Bool
  | none, _ => true
  | some b, c => decide (c < b)

/-- `val_accuracy` improvement test of `ModelCheckpoint` (mode max):
any value improves on "nothing yet", otherwise strict increase. -/
def accImproved : Option ℚ → ℚ → Bool
  | none, _ => true
  | some b, c => decide (b < c)

/-- Modelled from the spec: one epoch of the two independent best-trackers
configured in train.py lines 133-151 (Keras callback semantics, spec
section 4.4).  If `val_loss` improved, early stopping records this epoch's
snapshot and resets its patience counter, else the counter grows and
training stops once it reaches `patience`.  Independently, if `val_accuracy`
improved, the checkpoint callback saves this epoch's snapshot. -/
def stepEpoch (patience : Nat) (s : TrainState) (m : EpochMetrics) : TrainState :=
  if s.stopped then s
  else
    let s1 :=
      if lossImproved s.bestLoss m.valLoss then
        { s with bestLoss := some m.valLoss, bestLossEpoch := s.epochsRun, wait := 0 }
      else { s with wait := s.wait + 1 }
    let s2 :=
      if accImproved s.bestAcc m.valAcc then
        { s1 with bestAcc := some m.valAcc, checkpointEpoch := some s.epochsRun }
      else s1
    { s2 with epochsRun := s.epochsRun + 1, stopped := decide (patience ≤ s1.wait) }

/-- train.py `train_model` (lines 88-208), reduced to its callback effect on
a given per-epoch validation history: fold the two best-trackers over the
epochs (at most `config.EPOCHS` entries; epochs after an early stop are not
executed). -/
def train_model (patience : Nat) (history : List EpochMetrics) : TrainState :=
  history.foldl (stepEpoch patience) initialTrainState

/-- Invariant tying the training fold's state to the consumed epoch prefix
`c`: `epochsRun` counts the executed epochs (all of `c` unless stopping cut
the run short), the loss tracker points at an executed epoch of minimal
validation loss (the snapshot restored by early stopping), and the
checkpoint tracker at an executed epoch of maximal validation accuracy (the
snapshot last written to disk). -/
def ExecInv (pre : List EpochMetrics) (s : TrainState) : Prop :=
  s.epochsRun ≤ pre.length ∧
  (s.stopped = false → s.epochsRun = pre.length) ∧
  (s.epochsRun = 0 →
    s.bestLoss = none ∧ s.bestAcc = none ∧ s.checkpointEpoch = none) ∧
  (0 < s.epochsRun →
    ∃ mb, pre[s.bestLossEpoch]? = some mb ∧ s.bestLossEpoch < s.epochsRun ∧
      s.bestLoss = some mb.valLoss ∧
      ∀ i, i < s.epochsRun → ∀ mi, pre[i]? = some mi → mb.valLoss ≤ mi.valLoss) ∧
  (0 < s.epochsRun →
    ∃ j mb, s.checkpointEpoch = some j ∧ pre[j]? = some mb ∧ j < s.epochsRun ∧
      s.bestAcc = some mb.valAcc ∧
      ∀ i, i < s.epochsRun → ∀ mi, pre[i]? = some mi → mi.valAcc ≤ mb.valAcc)

/-! ## Supporting lemmas -/

/-- Removing index `k` and re-prepending the removed element permutes back. -/
theorem get_cons_eraseIdx_perm {α : Type} :
    ∀ (l : List α) (k : Nat) (h : k < l.length),
      (l.get ⟨k, h⟩ :: l.eraseIdx k).Perm l
  | _ :: _, 0, _ => by simp [List.eraseIdx]
  | x :: xs, k + 1, h => by
    have hk : k < xs.length := by simpa using h
    have ih := get_cons_eraseIdx_perm xs k hk
    show (xs.get ⟨k, hk⟩ :: x :: xs.eraseIdx k).Perm (x :: xs)
    exact (List.Perm.swap x (xs.get ⟨k, hk⟩) _).trans (ih.cons x)

theorem shuffleGo_perm {α : Type} :
    ∀ (fuel s : Nat) (l : List α), l.length ≤ fuel → (shuffleGo fuel s l).Perm l
  | 0, _, [], _ => by simp [shuffleGo]
  | 0, _, _ :: _, h => by simp at h
  | _ + 1, _, [], _ => by simp [shuffleGo]
  | fuel + 1, s, x :: xs, h => by
    have hk : s % (x :: xs).length < (x :: xs).length :=
      Nat.mod_lt _ (Nat.succ_pos xs.length)
    have hlen : ((x :: xs).eraseIdx (s % (x :: xs).length)).length ≤ fuel := by
      rw [List.length_eraseIdx]
      simp only [hk, if_pos]
      simp only [List.length_cons] at h ⊢
      omega
    have ih := shuffleGo_perm fuel (lcg s) ((x :: xs).eraseIdx (s % (x :: xs).length)) hlen
    exact (ih.cons _).trans (get_cons_eraseIdx_perm (x :: xs) _ hk)

/-- The seeded shuffle is a permutation of its input. -/
theorem shuffleList_perm {α : Type} (s : Nat) (l : List α) :
    (shuffleList s l).Perm l :=
  shuffleGo_perm l.length s l (Nat.le_refl _)

/-- A list is permuted by splitting into the sub-list satisfying `p` and the
sub-list refuting it. -/
theorem filter_append_not_perm {α : Type} (p : α → Bool) :
    ∀ l : List α, (l.filter p ++ l.filter (fun a => !p a)).Perm l
  | [] => by simp
  | x :: xs => by
    cases hx : p x with
    | true =>
      simpa [List.filter_cons, hx] using (filter_append_not_perm p xs).cons x
    | false =>
      simp only [List.filter_cons, hx, Bool.not_false, if_neg, cond_false, cond_true]
      exact List.perm_middle.trans ((filter_append_not_perm p xs).cons x)

theorem length_filter_add_length_filter_not {α : Type} (p : α → Bool) (l : List α) :
    (l.filter p).length + (l.filter (fun a => !p a)).length = l.length := by
  have h := (filter_append_not_perm p l).length_eq
  simpa using h

/-- Interleaved four-block append rearrangement. -/
theorem perm_append_swap_middle {α : Type} (A B C D : List α) :
    ((A ++ B) ++ (C ++ D)).Perm ((A ++ C) ++ (B ++ D)) := by
  have h : (B ++ (C ++ D)).Perm (C ++ (B ++ D)) := by
    have h1 : (B ++ (C ++ D)).Perm ((C ++ D) ++ B) := List.perm_append_comm
    have h2 : ((C ++ D) ++ B).Perm (C ++ (B ++ D)) := by
      rw [List.append_assoc]
      exact List.Perm.append_left C List.perm_append_comm
    exact h1.trans h2
  rw [List.append_assoc, List.append_assoc]
  exact List.Perm.append_left A h

theorem drop_append_take_perm {α : Type} (n : Nat) (l : List α) :
    (l.drop n ++ l.take n).Perm l := by
  have h : (l.drop n ++ l.take n).Perm (l.take n ++ l.drop n) := List.perm_append_comm
  rw [List.take_append_drop] at h
  exact h

/-- Characterisation of the modelled stratified `train_test_split`
(`num/den` = test share, `num ≤ den`): train ++ test permutes the input,
the test split takes exactly `⌊num·g/den⌋` of the `g` genuine samples and
`⌊num·(n-g)/den⌋` of the others, the train split keeps the rest. -/
theorem train_test_split_spec {α : Type} (seed num den : Nat) (hnd : num ≤ den)
    (hden : 0 < den) (samples : List (α × Nat)) :
    ((train_test_split seed num den samples).1
        ++ (train_test_split seed num den samples).2).Perm samples ∧
    genuineCount (train_test_split seed num den samples).2
        = num * genuineCount samples / den ∧
    genuineCount (train_test_split seed num den samples).1
        = genuineCount samples - num * genuineCount samples / den ∧
    (train_test_split seed num den samples).2.length
        = num * genuineCount samples / den
          + num * (samples.length - genuineCount samples) / den ∧
    (train_test_split seed num den samples).1.length
        = samples.length - (train_test_split seed num den samples).2.length := by
  have hgc : samples.countP (fun s => s.2 == 1)
      = (samples.filter (fun s => s.2 == 1)).length :=
    List.countP_eq_length_filter _ _
  have hTot : (samples.filter (fun s => s.2 == 1)).length
      + (samples.filter (fun s => !(s.2 == 1))).length = samples.length := by
    have h := length_filter_add_length_filter_not
      (fun s : α × Nat => s.2 == 1) samples
    simpa using h
  simp only [train_test_split, genuineCount]
  set pos := samples.filter (fun s => s.2 == 1) with hpos
  set neg := samples.filter (fun s => !(s.2 == 1)) with hneg
  set posSh := shuffleList seed pos with hposSh
  set negSh := shuffleList (lcg seed) neg with hnegSh
  set nPos := num * pos.length / den with hnPos
  set nNeg := num * neg.length / den with hnNeg
  have hPosPerm : posSh.Perm pos := shuffleList_perm seed pos
  have hNegPerm : negSh.Perm neg := shuffleList_perm (lcg seed) neg
  have hPosShLen : posSh.length = pos.length := hPosPerm.length_eq
  have hNegShLen : negSh.length = neg.length := hNegPerm.length_eq
  have hnPosLe : nPos ≤ pos.length := by
    rw [hnPos]
    calc num * pos.length / den ≤ den * pos.length / den :=
          Nat.div_le_div_right (Nat.mul_le_mul_right _ hnd)
      _ = pos.length := Nat.mul_div_cancel_left _ hden
  have hnNegLe : nNeg ≤ neg.length := by
    rw [hnNeg]
    calc num * neg.length / den ≤ den * neg.length / den :=
          Nat.div_le_div_right (Nat.mul_le_mul_right _ hnd)
      _ = neg.length := Nat.mul_div_cancel_left _ hden
  have hPosAll : ∀ a ∈ posSh, (a.2 == 1) = true := by
    intro a ha
    have := List.of_mem_filter (p := fun s : α × Nat => s.2 == 1)
      (hPosPerm.mem_iff.mp ha)
    simpa using this
  have hNegAll : ∀ a ∈ negSh, ¬ ((a.2 == 1) = true) := by
    intro a ha
    have := List.of_mem_filter (p := fun s : α × Nat => !(s.2 == 1))
      (hNegPerm.mem_iff.mp ha)
    simpa using this
  have hCntPosTake : (posSh.take nPos).countP (fun s => s.2 == 1)
      = (posSh.take nPos).length :=
    (List.countP_eq_length).mpr
      (fun a ha => hPosAll a (List.take_subset _ _ ha))
  have hCntPosDrop : (posSh.drop nPos).countP (fun s => s.2 == 1)
      = (posSh.drop nPos).length :=
    (List.countP_eq_length).mpr
      (fun a ha => hPosAll a (List.drop_subset _ _ ha))
  have hCntNegTake : (negSh.take nNeg).countP (fun s => s.2 == 1) = 0 :=
    (List.countP_eq_zero).mpr
      (fun a ha => hNegAll a (List.take_subset _ _ ha))
  have hCntNegDrop : (negSh.drop nNeg).countP (fun s => s.2 == 1) = 0 :=
    (List.countP_eq_zero).mpr
      (fun a ha => hNegAll a (List.drop_subset _ _ ha))
  have hTakePosLen : (posSh.take nPos).length = nPos := by
    rw [List.length_take]
    omega
  have hTakeNegLen : (negSh.take nNeg).length = nNeg := by
    rw [List.length_take]
    omega
  refine ⟨?_, ?_, ?_, ?_, ?_⟩
  · refine (perm_append_swap_middle _ _ _ _).trans ?_
    refine (((drop_append_take_perm nPos posSh).append
        (drop_append_take_perm nNeg negSh)).trans ?_)
    refine ((hPosPerm.append hNegPerm).trans ?_)
    have h := filter_append_not_perm (fun s : α × Nat => s.2 == 1) samples
    simpa using h
  · rw [List.countP_append, hCntPosTake, hCntNegTake, hTakePosLen, hgc, ← hnPos]
    omega
  · rw [List.countP_append, hCntPosDrop, hCntNegDrop, List.length_drop,
      hgc, ← hnPos, hPosShLen]
    omega
  · have hNegEq : samples.length - pos.length = neg.length := by omega
    rw [List.length_append, hTakePosLen, hTakeNegLen, hgc, hNegEq, ← hnPos, ← hnNeg]
  · rw [List.length_append, List.length_append, hTakePosLen, hTakeNegLen,
      List.length_drop, List.length_drop]
    omega

/-! ## Theorems about the verification engine -/

/-- **C1**: the verification verdict is MATCH exactly when both classifier
probabilities are at least the confidence threshold (0.5) and the similarity
`1 - |p_ref - p_test|` strictly exceeds the similarity threshold 0.85; in
every other case the verdict string is "REJECTED". -/
theorem verify_match_iff {α : Type} (classify : α → ℚ) (refImg testImg : α) :
    ((verify_signature classify refImg testImg).matched = true ↔
      (CONFIDENCE_THRESHOLD ≤ classify refImg ∧
        CONFIDENCE_THRESHOLD ≤ classify testImg ∧
        (85:ℚ)/100 < 1 - |classify refImg - classify testImg|)) ∧
    ((verify_signature classify refImg testImg).matched = false →
      (verify_signature classify refImg testImg).verdict = "REJECTED") ∧
    ((verify_signature classify refImg testImg).matched = true →
      (verify_signature classify refImg testImg).verdict = "VERIFIED") := by
  refine ⟨?_, ?_, ?_⟩
  · simp [verify_signature, and_assoc]
  · intro h
    simp only [verify_signature] at h ⊢
    simp [h]
  · intro h
    simp only [verify_signature] at h ⊢
    simp [h]

/-- Witness for `verify_match_iff` at `p_ref = 0.95`, `p_test = 0.40`:
the test probability is below the threshold, so the match boolean is false
and the implication gives verdict "REJECTED". -/
theorem verify_match_iff_witness :
    (verify_signature (fun q : ℚ => q) (95/100) (40/100)).verdict
      = "REJECTED" := by
  refine (verify_match_iff (fun q : ℚ => q) (95/100) (40/100)).2.1 ?_
  norm_num [verify_signature, CONFIDENCE_THRESHOLD, abs_of_nonneg, abs_of_nonpos]

/-- **C2**: the similarity computed by the verification engine equals
`1 - |p_ref - p_test|`; it lies in `[0,1]` whenever both probabilities lie in
`[0,1]`; and it equals exactly 1 when the two classifier outputs are
identical — in particular when the same image is both reference and test. -/
theorem similarity_spec {α : Type} (classify : α → ℚ) (refImg testImg : α) :
    (verify_signature classify refImg testImg).similarity
        = 1 - |classify refImg - classify testImg| ∧
    (0 ≤ classify refImg → classify refImg ≤ 1 →
      0 ≤ classify testImg → classify testImg ≤ 1 →
      0 ≤ (verify_signature classify refImg testImg).similarity ∧
        (verify_signature classify refImg testImg).similarity ≤ 1) ∧
    (verify_signature classify refImg refImg).similarity = 1 := by
  refine ⟨rfl, ?_, ?_⟩
  · intro h0r h1r h0t h1t
    constructor
    · have habs : |classify refImg - classify testImg| ≤ 1 := by
        rw [abs_sub_le_iff]
        constructor <;> linarith
      show (0:ℚ) ≤ 1 - |classify refImg - classify testImg|
      linarith
    · have habs : (0:ℚ) ≤ |classify refImg - classify testImg| := abs_nonneg _
      show (1:ℚ) - |classify refImg - classify testImg| ≤ 1
      linarith
  · show (1:ℚ) - |classify refImg - classify refImg| = 1
    simp

/-- Witness for `similarity_spec` at `p_ref = p_test = 3/4`. -/
theorem similarity_spec_witness :
    0 ≤ (verify_signature (fun q : ℚ => q) (3/4) (3/4)).similarity ∧
    (verify_signature (fun q : ℚ => q) (3/4) (3/4)).similarity ≤ 1 ∧
    (verify_signature (fun q : ℚ => q) (3/4) (3/4)).similarity = 1 := by
  have h := similarity_spec (fun q : ℚ => q) (3/4) (3/4)
  have hrange := h.2.1 (by norm_num) (by norm_num) (by norm_num) (by norm_num)
  exact ⟨hrange.1, hrange.2, h.2.2⟩

/-- **C10**: the verification verdict is symmetric in its two inputs —
swapping the reference and test images changes neither the match boolean nor
the similarity score. -/
theorem verify_symmetric {α : Type} (classify : α → ℚ) (refImg testImg : α) :
    (verify_signature classify refImg testImg).matched
        = (verify_signature classify testImg refImg).matched ∧
    (verify_signature classify refImg testImg).similarity
        = (verify_signature classify testImg refImg).similarity := by
  constructor
  · simp only [verify_signature]
    rw [abs_sub_comm]
    rw [Bool.and_comm (decide (CONFIDENCE_THRESHOLD ≤ classify refImg))
        (decide (CONFIDENCE_THRESHOLD ≤ classify testImg))]
  · simp only [verify_signature]
    rw [abs_sub_comm]

/-- **C6**: at probability exactly 0.5 the serving endpoints (`/predict`,
`/verify`) classify GENUINE (they compare with `>=`) while the Evaluator's
hard prediction is FORGED (it compares with strict `>`); at every other
probability the two classifications agree.  The `/verify` endpoint applies
the same `>=` comparison as `/predict` to each of its two inputs. -/
theorem threshold_boundary_disagreement :
    predict_is_genuine CONFIDENCE_THRESHOLD = true ∧
    evaluate_hard_pred CONFIDENCE_THRESHOLD = 0 ∧
    (∀ p : ℚ, p ≠ CONFIDENCE_THRESHOLD →
      (predict_is_genuine p = true ↔ evaluate_hard_pred p = 1)) ∧
    (∀ (α : Type) (classify : α → ℚ) (refImg testImg : α),
      (verify_signature classify refImg testImg).refGenuine
          = predict_is_genuine (classify refImg) ∧
      (verify_signature classify refImg testImg).testGenuine
          = predict_is_genuine (classify testImg)) := by
  refine ⟨by simp [predict_is_genuine], by simp [evaluate_hard_pred], ?_, ?_⟩
  · intro p hp
    simp only [predict_is_genuine, evaluate_hard_pred, decide_eq_true_eq]
    constructor
    · intro hle
      rw [if_pos (lt_of_le_of_ne hle (Ne.symm hp))]
    · intro h1
      by_cases hlt : CONFIDENCE_THRESHOLD < p
      · exact le_of_lt hlt
      · rw [if_neg hlt] at h1
        exact absurd h1 (by norm_num)
  · intro α classify refImg testImg
    exact ⟨rfl, rfl⟩

/-- Witness for `threshold_boundary_disagreement`: at `p = 3/4 ≠ 0.5` the
endpoint classification and the evaluator prediction agree. -/
theorem threshold_boundary_disagreement_witness :
    predict_is_genuine (3/4) = true ↔ evaluate_hard_pred (3/4) = 1 := by
  exact threshold_boundary_disagreement.2.2.1 (3/4)
    (by norm_num [CONFIDENCE_THRESHOLD])

/-! ## Theorems about image loading and dataset assembly -/

/-- **C5** counterexample: a folder whose only file is an undecodable blob.
The dataset-assembly loader does not fail there: it returns normally with an
empty sample list — the corrupt file is simply absent from the output — so
the claim that both paths "fail with a DecodeError, never an absent image"
is false on the dataset-assembly path. -/
theorem load_skips_undecodable_counterexample :
    load_images_from_folder ([none] : List (Option Unit)) 1 = [] ∧
    (load_images_from_folder ([none] : List (Option Unit)) 1).length
      ≠ ([none] : List (Option Unit)).length := by
  constructor
  · rfl
  · decide

/-- **C5 amended**: on the serving path (`preprocess_signature`) undecodable
bytes abort with the decode error, and only with it; on the dataset-assembly
path (`load_images_from_folder`) an unreadable file is logged and skipped —
the loader returns exactly the decodable images, each paired with the given
label (never a crash, and never a zero/placeholder image for the bad file). -/
theorem decode_failure_paths {α : Type} :
    (∀ imageBytes : Option α,
      (preprocess_signature imageBytes = Except.error "Could not decode image"
        ↔ imageBytes = none) ∧
      (∀ img, preprocess_signature imageBytes = Except.ok img
        ↔ imageBytes = some img)) ∧
    (∀ (files : List (Option α)) (label : Nat),
      load_images_from_folder files label
        = (files.filterMap id).map (fun img => (img, label))) := by
  constructor
  · intro b
    cases b <;> simp [preprocess_signature]
  · intro files label
    induction files with
    | nil => rfl
    | cons f rest ih =>
      cases f <;> simp [load_images_from_folder, ih]

/-- **C9**: the genuine and forged sub-folder variants are probed in a fixed
fallback order — the resolved path is the first existing candidate — and a
category with no existing variant is skipped for that identity (it
contributes no samples of that class) while assembly continues with the
other identities' contributions unchanged. -/
theorem folder_probe_order {α : Type} (u : IdentityDir α) :
    (∀ p, genuineCandidates.find? u.existsDir = some p →
      genuine_path u = p ∧ u.existsDir (genuine_path u) = true) ∧
    (genuineCandidates.find? u.existsDir = none → genuineContribution u = []) ∧
    (∀ p, forgedCandidates.find? u.existsDir = some p →
      forged_path u = p ∧ u.existsDir (forged_path u) = true) ∧
    (forgedCandidates.find? u.existsDir = none → forgedContribution u = []) ∧
    (∀ users : List (IdentityDir α),
      genuinePool (u :: users) = genuineContribution u ++ genuinePool users ∧
      forgedPool (u :: users) = forgedContribution u ++ forgedPool users) := by
  refine ⟨?_, ?_, ?_, ?_, ?_⟩
  · intro p hp
    by_cases h1 : u.existsDir "genuine/images" <;>
      by_cases h2 : u.existsDir "genuine_images" <;>
      by_cases h3 : u.existsDir "genuine" <;>
      simp_all [genuineCandidates, genuine_path]
  · intro hp
    by_cases h1 : u.existsDir "genuine/images" <;>
      by_cases h2 : u.existsDir "genuine_images" <;>
      by_cases h3 : u.existsDir "genuine" <;>
      simp_all [genuineCandidates, genuine_path, genuineContribution]
  · intro p hp
    by_cases h1 : u.existsDir "skilled forgery/images" <;>
      by_cases h2 : u.existsDir "skilled_forgery/images" <;>
      by_cases h3 : u.existsDir "skilled_forgery_images" <;>
      by_cases h4 : u.existsDir "forged_images" <;>
      by_cases h5 : u.existsDir "forged/images" <;>
      by_cases h6 : u.existsDir "skilled forgery" <;>
      by_cases h7 : u.existsDir "skilled_forgery" <;>
      simp_all [forgedCandidates, forged_path]
  · intro hp
    by_cases h1 : u.existsDir "skilled forgery/images" <;>
      by_cases h2 : u.existsDir "skilled_forgery/images" <;>
      by_cases h3 : u.existsDir "skilled_forgery_images" <;>
      by_cases h4 : u.existsDir "forged_images" <;>
      by_cases h5 : u.existsDir "forged/images" <;>
      by_cases h6 : u.existsDir "skilled forgery" <;>
      by_cases h7 : u.existsDir "skilled_forgery" <;>
      simp_all [forgedCandidates, forged_path, forgedContribution]
  · intro users
    constructor <;> rfl

/-- Witness for `folder_probe_order` at a concrete identity directory: the
probe resolves `genuine_images` (the second variant, the first being absent)
and `forged_images` (the fourth variant). -/
theorem folder_probe_order_witness :
    genuine_path (demoUser 100) = "genuine_images" ∧
    forged_path (demoUser 100) = "forged_images" := by
  have h := folder_probe_order (demoUser 100)
  refine ⟨(h.1 "genuine_images" (by rfl)).1, (h.2.2.1 "forged_images" (by rfl)).1⟩

/-- **C3**: assembly produces no split exactly when, after scanning all
identities, the genuine pool or the forged pool is empty (the source's
`return None, None, None`, the spec's `DatasetEmptyError`); whenever both
pools are non-empty a three-way split is returned. -/
theorem prepare_dataset_empty_iff {α : Type} (seed : Nat)
    (users : List (IdentityDir α)) :
    (prepare_dataset seed users = none ↔
      genuinePool users = [] ∨ forgedPool users = []) ∧
    (genuinePool users ≠ [] → forgedPool users ≠ [] →
      ∃ tr va te, prepare_dataset seed users = some (tr, va, te)) := by
  constructor
  · simp only [prepare_dataset]
    by_cases h : (genuinePool users).length = 0 ∨ (forgedPool users).length = 0
    · rw [if_pos h]
      simp only [List.length_eq_zero] at h
      simp [h]
    · rw [if_neg h]
      simp only [List.length_eq_zero] at h
      simp [h]
  · intro hg hf
    simp only [prepare_dataset]
    rw [if_neg]
    · exact ⟨_, _, _, rfl⟩
    · simp only [List.length_eq_zero]
      tauto

/-- **C4**: every successfully assembled dataset is partitioned by the three
returned splits: their concatenation permutes the assembled dataset (so the
splits are pairwise disjoint as a partition of the assembled samples and
their sizes sum exactly to the total `n`); the sizes are ≈70%/15%/15% up to
rounding; and each split preserves the genuine/forged class proportions up
to rounding error (exact per-class counts given by the floor formulas, with
the resulting ratio bounds spelled out). -/
theorem prepare_dataset_split_invariants {α : Type} (seed : Nat)
    (users : List (IdentityDir α)) (tr va te : List (α × Nat)) (n g : Nat)
    (h : prepare_dataset seed users = some (tr, va, te))
    (hn : n = (assembled_dataset users).length)
    (hg : g = genuineCount (assembled_dataset users)) :
    (tr ++ va ++ te).Perm (assembled_dataset users) ∧
    tr.length + va.length + te.length = n ∧
    genuineCount tr = g - 3 * g / 10 ∧
    genuineCount va = 3 * g / 10 - 3 * g / 10 / 2 ∧
    genuineCount te = 3 * g / 10 / 2 ∧
    tr.length - genuineCount tr = (n - g) - 3 * (n - g) / 10 ∧
    va.length - genuineCount va = 3 * (n - g) / 10 - 3 * (n - g) / 10 / 2 ∧
    te.length - genuineCount te = 3 * (n - g) / 10 / 2 ∧
    (7 * n ≤ 10 * tr.length ∧ 10 * tr.length ≤ 7 * n + 18) ∧
    (3 * n ≤ 20 * va.length + 19 ∧ 20 * va.length ≤ 3 * n + 20) ∧
    (3 * n ≤ 20 * te.length + 39 ∧ 20 * te.length ≤ 3 * n) ∧
    (7 * g ≤ 10 * genuineCount tr ∧ 10 * genuineCount tr ≤ 7 * g + 9) ∧
    (3 * g ≤ 20 * genuineCount va + 9 ∧ 20 * genuineCount va ≤ 3 * g + 10) ∧
    (3 * g ≤ 20 * genuineCount te + 19 ∧ 20 * genuineCount te ≤ 3 * g) := by
  have hglen : genuineCount (assembled_dataset users)
      ≤ (assembled_dataset users).length := List.countP_le_length _
  obtain ⟨p1, g1te, g1tr, l1te, l1tr⟩ :=
    train_test_split_spec seed 3 10 (by omega) (by omega) (assembled_dataset users)
  obtain ⟨p2, g2te, g2tr, l2te, l2tr⟩ :=
    train_test_split_spec seed 1 2 (by omega) (by omega)
      ((train_test_split seed 3 10 (assembled_dataset users)).2)
  have hX : prepare_dataset seed users
      = if (genuinePool users).length = 0 ∨ (forgedPool users).length = 0 then
          none
        else
          some ((train_test_split seed 3 10 (assembled_dataset users)).1,
            (train_test_split seed 1 2
              (train_test_split seed 3 10 (assembled_dataset users)).2).1,
            (train_test_split seed 1 2
              (train_test_split seed 3 10 (assembled_dataset users)).2).2) := rfl
  rw [hX] at h
  by_cases hcond :
      (genuinePool users).length = 0 ∨ (forgedPool users).length = 0
  · rw [if_pos hcond] at h
    cases h
  · rw [if_neg hcond] at h
    simp only [Option.some.injEq, Prod.mk.injEq] at h
    obtain ⟨htr, hva, hte⟩ := h
    subst htr
    subst hva
    subst hte
    subst hn
    subst hg
    have hperm :
        ((train_test_split seed 3 10 (assembled_dataset users)).1 ++
          ((train_test_split seed 1 2
              (train_test_split seed 3 10 (assembled_dataset users)).2).1 ++
            (train_test_split seed 1 2
              (train_test_split seed 3 10 (assembled_dataset users)).2).2)).Perm
          (assembled_dataset users) :=
      (List.Perm.append_left _ p2).trans p1
    have hlen := hperm.length_eq
    simp only [List.length_append] at hlen
    have hperm2 :
        ((train_test_split seed 3 10 (assembled_dataset users)).1 ++
            (train_test_split seed 1 2
              (train_test_split seed 3 10 (assembled_dataset users)).2).1 ++
          (train_test_split seed 1 2
            (train_test_split seed 3 10 (assembled_dataset users)).2).2).Perm
          (assembled_dataset users) := by
      rw [List.append_assoc]
      exact hperm
    refine ⟨hperm2, ?_, ?_, ?_, ?_, ?_, ?_, ?_, ?_, ?_, ?_, ?_, ?_, ?_⟩ <;> omega

/-- Witness for `prepare_dataset_split_invariants`: the demo directory tree
(20 samples, 10 genuine), with the concrete splits computed by the
embedding. -/
theorem prepare_dataset_split_invariants_witness :
    ([((204:Nat), (1:Nat)), (202, 1), (103, 1), (104, 1), (203, 1), (200, 1),
        (201, 1), (107, 0), (108, 0), (205, 0), (109, 0), (105, 0), (208, 0),
        (206, 0)] ++
      [(101, 1), (100, 1), (209, 0), (106, 0)] ++
      [(102, 1), (207, 0)]).Perm (assembled_dataset demoUsers) ∧
    ([((204:Nat), (1:Nat)), (202, 1), (103, 1), (104, 1), (203, 1), (200, 1),
        (201, 1), (107, 0), (108, 0), (205, 0), (109, 0), (105, 0), (208, 0),
        (206, 0)] : List (Nat × Nat)).length +
      ([(101, 1), (100, 1), (209, 0), (106, 0)] : List (Nat × Nat)).length +
      ([(102, 1), (207, 0)] : List (Nat × Nat)).length = 20 := by
  have h := prepare_dataset_split_invariants 42 demoUsers
    [(204, 1), (202, 1), (103, 1), (104, 1), (203, 1), (200, 1), (201, 1),
      (107, 0), (108, 0), (205, 0), (109, 0), (105, 0), (208, 0), (206, 0)]
    [(101, 1), (100, 1), (209, 0), (106, 0)]
    [(102, 1), (207, 0)] 20 10 (by decide) (by decide) (by decide)
  exact ⟨h.1, h.2.1⟩

/-- Witness for `prepare_dataset_empty_iff`: on the demo directory tree both
pools are non-empty and a three-way split is produced. -/
theorem prepare_dataset_empty_iff_witness :
    ∃ tr va te, prepare_dataset 42 demoUsers = some (tr, va, te) :=
  (prepare_dataset_empty_iff 42 demoUsers).2 (by decide) (by decide)

/-- **C7**: dataset assembly is deterministic — with the random seed and the
directory contents fixed, two runs of `prepare_dataset` return identical
split assignments.  (In the embedding the seeded generator is the only
randomness source, mirroring `random_state=RANDOM_SEED` being passed to both
`train_test_split` calls in the source.) -/
theorem prepare_dataset_deterministic {α : Type} (seed1 seed2 : Nat)
    (users1 users2 : List (IdentityDir α))
    (hseed : seed1 = seed2) (husers : users1 = users2) :
    prepare_dataset seed1 users1 = prepare_dataset seed2 users2 := by
  rw [hseed, husers]

/-- Witness for `prepare_dataset_deterministic`: two runs on the demo
directory tree with the source's seed 42. -/
theorem prepare_dataset_deterministic_witness :
    prepare_dataset 42 demoUsers = prepare_dataset 42 demoUsers :=
  prepare_dataset_deterministic 42 42 demoUsers demoUsers rfl rfl

/-! ## Theorems about the training controller -/

/-- The invariant holds before the first epoch. -/
theorem execInv_init : ExecInv [] initialTrainState := by
  refine ⟨Nat.le_refl _, fun _ => rfl, fun _ => ⟨rfl, rfl, rfl⟩, ?_, ?_⟩ <;>
    · intro hpos
      exact absurd hpos (by simp [initialTrainState])

/-- One epoch of the training fold preserves the invariant. -/
theorem stepEpoch_execInv (patience : Nat) (pre : List EpochMetrics)
    (s : TrainState) (m : EpochMetrics) (h : ExecInv pre s) :
    ExecInv (pre ++ [m]) (stepEpoch patience s m) := by
  obtain ⟨h1, h2, h3, h4, h5⟩ := h
  have hgetOld : ∀ i, i < pre.length → (pre ++ [m])[i]? = pre[i]? := by
    intro i hi
    rw [List.getElem?_append, if_pos hi]
  have hgetNew : (pre ++ [m])[pre.length]? = some m :=
    List.getElem?_concat_length pre m
  have hlen : (pre ++ [m]).length = pre.length + 1 := by simp
  by_cases hst : s.stopped = true
  · rw [stepEpoch, if_pos hst]
    refine ⟨by omega, ?_, h3, ?_, ?_⟩
    · intro hf
      rw [hf] at hst
      cases hst
    · intro hpos
      obtain ⟨mb, hmb, hlt, hbl, hmin⟩ := h4 hpos
      refine ⟨mb, ?_, hlt, hbl, ?_⟩
      · rw [hgetOld _ (Nat.lt_of_lt_of_le hlt h1)]
        exact hmb
      · intro i hi mi hmi
        rw [hgetOld _ (Nat.lt_of_lt_of_le hi h1)] at hmi
        exact hmin i hi mi hmi
    · intro hpos
      obtain ⟨j, mb, hcp, hmb, hlt, hba, hmax⟩ := h5 hpos
      refine ⟨j, mb, hcp, ?_, hlt, hba, ?_⟩
      · rw [hgetOld _ (Nat.lt_of_lt_of_le hlt h1)]
        exact hmb
      · intro i hi mi hmi
        rw [hgetOld _ (Nat.lt_of_lt_of_le hi h1)] at hmi
        exact hmax i hi mi hmi
  · have hst2 : s.stopped = false := by
      cases hsv : s.stopped
      · rfl
      · exact absurd hsv hst
    have hL : s.epochsRun = pre.length := h2 hst2
    have hNewGet : (pre ++ [m])[s.epochsRun]? = some m := by
      rw [hL]
      exact hgetNew
    have hfeE : (stepEpoch patience s m).epochsRun = s.epochsRun + 1 := by
      rw [stepEpoch, if_neg hst]
    have hLoss :
        ∃ mb, (pre ++ [m])[(stepEpoch patience s m).bestLossEpoch]? = some mb ∧
          (stepEpoch patience s m).bestLossEpoch < s.epochsRun + 1 ∧
          (stepEpoch patience s m).bestLoss = some mb.valLoss ∧
          ∀ i, i < s.epochsRun + 1 → ∀ mi, (pre ++ [m])[i]? = some mi →
            mb.valLoss ≤ mi.valLoss := by
      by_cases hli : lossImproved s.bestLoss m.valLoss = true
      · have hfe : (stepEpoch patience s m).bestLossEpoch = s.epochsRun ∧
            (stepEpoch patience s m).bestLoss = some m.valLoss := by
          rw [stepEpoch, if_neg hst]
          by_cases hacc : accImproved s.bestAcc m.valAcc = true <;>
            simp [hli, hacc]
        refine ⟨m, by rw [hfe.1]; exact hNewGet, by omega, hfe.2, ?_⟩
        intro i hi mi hmi
        rcases Nat.lt_succ_iff_lt_or_eq.mp hi with hi2 | hi2
        · have hpos : 0 < s.epochsRun := Nat.lt_of_le_of_lt (Nat.zero_le i) hi2
          obtain ⟨mb0, hmb0, hlt0, hbl0, hmin0⟩ := h4 hpos
          rw [hbl0] at hli
          have hltv : m.valLoss < mb0.valLoss := of_decide_eq_true hli
          rw [hgetOld _ (by omega)] at hmi
          exact le_of_lt (lt_of_lt_of_le hltv (hmin0 i hi2 mi hmi))
        · rw [hi2, hNewGet] at hmi
          cases hmi
          exact le_refl _
      · have hpos : 0 < s.epochsRun := by
          rcases Nat.eq_zero_or_pos s.epochsRun with h0 | hp
          · exfalso
            obtain ⟨hbl0, _, _⟩ := h3 h0
            rw [hbl0] at hli
            exact hli rfl
          · exact hp
        obtain ⟨mb0, hmb0, hlt0, hbl0, hmin0⟩ := h4 hpos
        have hlif : lossImproved s.bestLoss m.valLoss = false := by
          cases hv : lossImproved s.bestLoss m.valLoss
          · rfl
          · exact absurd hv hli
        have hfe : (stepEpoch patience s m).bestLossEpoch = s.bestLossEpoch ∧
            (stepEpoch patience s m).bestLoss = s.bestLoss := by
          rw [stepEpoch, if_neg hst]
          by_cases hacc : accImproved s.bestAcc m.valAcc = true <;>
            simp [hlif, hacc]
        have hnlt : ¬ (m.valLoss < mb0.valLoss) := by
          intro hc
          rw [hbl0] at hli
          exact hli (decide_eq_true hc)
        refine ⟨mb0, ?_, by omega, by rw [hfe.2]; exact hbl0, ?_⟩
        · rw [hfe.1, hgetOld _ (by omega)]
          exact hmb0
        · intro i hi mi hmi
          rcases Nat.lt_succ_iff_lt_or_eq.mp hi with hi2 | hi2
          · rw [hgetOld _ (by omega)] at hmi
            exact hmin0 i hi2 mi hmi
          · rw [hi2, hNewGet] at hmi
            cases hmi
            exact le_of_not_lt hnlt
    have hAcc :
        ∃ j mb, (stepEpoch patience s m).checkpointEpoch = some j ∧
          (pre ++ [m])[j]? = some mb ∧ j < s.epochsRun + 1 ∧
          (stepEpoch patience s m).bestAcc = some mb.valAcc ∧
          ∀ i, i < s.epochsRun + 1 → ∀ mi, (pre ++ [m])[i]? = some mi →
            mi.valAcc ≤ mb.valAcc := by
      by_cases hacc : accImproved s.bestAcc m.valAcc = true
      · have hfe : (stepEpoch patience s m).checkpointEpoch = some s.epochsRun ∧
            (stepEpoch patience s m).bestAcc = some m.valAcc := by
          rw [stepEpoch, if_neg hst]
          by_cases hli : lossImproved s.bestLoss m.valLoss = true <;>
            simp [hli, hacc]
        refine ⟨s.epochsRun, m, hfe.1, hNewGet, by omega, hfe.2, ?_⟩
        intro i hi mi hmi
        rcases Nat.lt_succ_iff_lt_or_eq.mp hi with hi2 | hi2
        · have hpos : 0 < s.epochsRun := Nat.lt_of_le_of_lt (Nat.zero_le i) hi2
          obtain ⟨j0, mb0, hcp0, hmb0, hlt0, hba0, hmax0⟩ := h5 hpos
          rw [hba0] at hacc
          have hltv : mb0.valAcc < m.valAcc := of_decide_eq_true hacc
          rw [hgetOld _ (by omega)] at hmi
          exact le_of_lt (lt_of_le_of_lt (hmax0 i hi2 mi hmi) hltv)
        · rw [hi2, hNewGet] at hmi
          cases hmi
          exact le_refl _
      · have hpos : 0 < s.epochsRun := by
          rcases Nat.eq_zero_or_pos s.epochsRun with h0 | hp
          · exfalso
            obtain ⟨_, hba0, _⟩ := h3 h0
            rw [hba0] at hacc
            exact hacc rfl
          · exact hp
        obtain ⟨j0, mb0, hcp0, hmb0, hlt0, hba0, hmax0⟩ := h5 hpos
        have haccf : accImproved s.bestAcc m.valAcc = false := by
          cases hv : accImproved s.bestAcc m.valAcc
          · rfl
          · exact absurd hv hacc
        have hfe : (stepEpoch patience s m).checkpointEpoch = s.checkpointEpoch ∧
            (stepEpoch patience s m).bestAcc = s.bestAcc := by
          rw [stepEpoch, if_neg hst]
          by_cases hli : lossImproved s.bestLoss m.valLoss = true <;>
            simp [hli, haccf]
        have hnlt : ¬ (mb0.valAcc < m.valAcc) := by
          intro hc
          rw [hba0] at hacc
          exact hacc (decide_eq_true hc)
        refine ⟨j0, mb0, by rw [hfe.1]; exact hcp0, ?_, by omega,
          by rw [hfe.2]; exact hba0, ?_⟩
        · rw [hgetOld _ (by omega)]
          exact hmb0
        · intro i hi mi hmi
          rcases Nat.lt_succ_iff_lt_or_eq.mp hi with hi2 | hi2
          · rw [hgetOld _ (by omega)] at hmi
            exact hmax0 i hi2 mi hmi
          · rw [hi2, hNewGet] at hmi
            cases hmi
            exact le_of_not_lt hnlt
    refine ⟨?_, ?_, ?_, ?_, ?_⟩
    · rw [hfeE, hlen]
      omega
    · intro _
      rw [hfeE, hlen]
      omega
    · intro h0
      rw [hfeE] at h0
      exact absurd h0 (by omega)
    · intro _
      rw [hfeE]
      exact hLoss
    · intro _
      rw [hfeE]
      exact hAcc

/-- Folding epochs preserves the invariant. -/
theorem foldl_execInv (patience : Nat) :
    ∀ (rest pre : List EpochMetrics) (s : TrainState), ExecInv pre s →
      ExecInv (pre ++ rest) (rest.foldl (stepEpoch patience) s)
  | [], pre, s, h => by simpa using h
  | m :: rest, pre, s, h => by
    have hstep := stepEpoch_execInv patience pre s m h
    have hrec := foldl_execInv patience rest (pre ++ [m]) (stepEpoch patience s m) hstep
    simpa using hrec

/-- The invariant at the end of training. -/
theorem train_model_execInv (patience : Nat) (history : List EpochMetrics) :
    ExecInv history (train_model patience history) := by
  have h := foldl_execInv patience history [] initialTrainState execInv_init
  simpa [train_model] using h

/-- **C8**: the Training Controller tracks two independent optima.  At the
end of any training run, early stopping's restored snapshot
(`bestLossEpoch`) is an executed epoch of minimal validation loss, while the
checkpoint callback's last save (`checkpointEpoch`) is an executed epoch of
maximal validation accuracy; on the concrete two-epoch history
`[(loss 2, acc 5), (loss 1, acc 3)]` the two trackers select different
epochs (restore epoch 1, checkpoint epoch 0), so the mechanisms fire
independently. -/
theorem training_dual_optima (patience : Nat) (history : List EpochMetrics) :
    (∀ i, i < (train_model patience history).epochsRun →
      ∀ mi, history[i]? = some mi →
        ∃ mb, history[(train_model patience history).bestLossEpoch]? = some mb ∧
          (train_model patience history).bestLoss = some mb.valLoss ∧
          mb.valLoss ≤ mi.valLoss) ∧
    (∀ i, i < (train_model patience history).epochsRun →
      ∀ mi, history[i]? = some mi →
        ∃ j mb, (train_model patience history).checkpointEpoch = some j ∧
          history[j]? = some mb ∧
          (train_model patience history).bestAcc = some mb.valAcc ∧
          mi.valAcc ≤ mb.valAcc) ∧
    ((train_model 10 [⟨2, 5⟩, ⟨1, 3⟩]).bestLossEpoch = 1 ∧
      (train_model 10 [⟨2, 5⟩, ⟨1, 3⟩]).checkpointEpoch = some 0) := by
  obtain ⟨_, _, _, h4, h5⟩ := train_model_execInv patience history
  refine ⟨?_, ?_, ?_⟩
  · intro i hi mi hmi
    have hpos : 0 < (train_model patience history).epochsRun :=
      Nat.lt_of_le_of_lt (Nat.zero_le i) hi
    obtain ⟨mb, hmb, _, hbl, hmin⟩ := h4 hpos
    exact ⟨mb, hmb, hbl, hmin i hi mi hmi⟩
  · intro i hi mi hmi
    have hpos : 0 < (train_model patience history).epochsRun :=
      Nat.lt_of_le_of_lt (Nat.zero_le i) hi
    obtain ⟨j, mb, hcp, hmb, _, hba, hmax⟩ := h5 hpos
    exact ⟨j, mb, hcp, hmb, hba, hmax i hi mi hmi⟩
  · constructor <;> decide

/-- Witness for `training_dual_optima` at the two-epoch demo history, epoch
index 0. -/
theorem training_dual_optima_witness :
    ∃ mb, ([⟨2, 5⟩, ⟨1, 3⟩] :
        List EpochMetrics)[(train_model 10 [⟨2, 5⟩, ⟨1, 3⟩]).bestLossEpoch]?
          = some mb ∧
      (train_model 10 [⟨2, 5⟩, ⟨1, 3⟩]).bestLoss = some mb.valLoss ∧
      mb.valLoss ≤ (⟨2, 5⟩ : EpochMetrics).valLoss :=
  (training_dual_optima 10 [⟨2, 5⟩, ⟨1, 3⟩]).1 0 (by decide) ⟨2, 5⟩ rfl

end SignatureVerif


